import Mathlib

/-
Verification of the meteor_auto pass-prediction and capture-scheduling engine.

Shallow embedding conventions:
  * Times are modelled as epoch seconds.  Pass-prediction sample times are
    natural numbers; the lock-file staleness arithmetic uses rationals
    (Python time.time() arithmetic with real division).
  * Elevations (Python floats used only in order comparisons) are rationals.
  * The orbital propagator (skyfield, declared an external collaborator by the
    design) is abstracted as a per-satellite elevation function Nat -> Rat.
  * Python dicts that are only iterated / filtered are association lists
    preserving iteration order; the per-satellite fallback-counter dict is a
    function String -> Option Nat (none = key absent).
  * Python str.upper / str.lower / substring and suffix tests are embedded at
    the character-list level (ASCII case mapping, list infix / suffix).
-/

namespace MeteorAuto

/-- ASCII uppercase mapping of one character (embeds Python str.upper for the
ASCII-only satellite names and patterns involved). -/
def charUp (c : Char) : Char :=
  if 97 ≤ c.toNat ∧ c.toNat ≤ 122 then Char.ofNat (c.toNat - 32) else c

/-- ASCII lowercase mapping of one character (embeds Python str.lower). -/
def charDown (c : Char) : Char :=
  if 65 ≤ c.toNat ∧ c.toNat ≤ 90 then Char.ofNat (c.toNat + 32) else c

/-- Uppercased character list of a string: Python name.upper(). -/
def upperChars (s : String) : List Char := s.data.map charUp

/-- Lowercased character list of a string: Python bands.lower(). -/
def lowerChars (s : String) : List Char := s.data.map charDown

/-- Python substring test (needle in hay). -/
def containsSub (hay needle : List Char) : Bool := decide (needle <:+: hay)

/-- Python filename.endswith(ext), used to embed Path.glob on a fixed
extension pattern. -/
def endsWithExt (filename ext : String) : Bool := decide (ext.data <:+ filename.data)

/- ===================== tle.py ===================== -/

/-- Two-line element strings (line1, line2) for one satellite. -/
abbrev TLE := String × String

/-- src/meteor_auto/tle.py `_METEOR_PATTERNS`. -/
def _METEOR_PATTERNS : List String :=
  ["METEOR-M N2-3", "METEOR-M N2-4", "METEOR-M2 3", "METEOR-M2 4",
   "METEOR-M2-3", "METEOR-M2-4"]

/-- src/meteor_auto/tle.py `_NOAA_PATTERNS`. -/
def _NOAA_PATTERNS : List String :=
  ["NOAA 15", "NOAA-15", "NOAA 19", "NOAA-19"]

/-- src/meteor_auto/tle.py `_METOP_PATTERNS`. -/
def _METOP_PATTERNS : List String :=
  ["METOP-B", "METOP C", "METOP-C"]

/-- any(p in u for p in patterns), with u an uppercased name. -/
def matchesAny (patterns : List String) (u : List Char) : Bool :=
  patterns.any (fun p => containsSub u p.data)

/-- src/meteor_auto/tle.py `select_targets` (lines 120-149).  The input dict
is an association list in iteration order; building the `selected` dict by
inserting the surviving (name, pair) entries in order is a filter. -/
def select_targets (tles : List (String × TLE)) (bands : String) :
    List (String × TLE) :=
  let b := lowerChars bands
  tles.filter (fun np =>
    let u := upperChars np.1
    let is_meteor := matchesAny _METEOR_PATTERNS u
    let is_noaa := matchesAny _NOAA_PATTERNS u
    let is_metop := matchesAny _METOP_PATTERNS u
    if b = "lrpt".data then is_meteor || is_noaa
    else if b = "hrpt".data then is_metop || is_noaa
    else is_meteor || is_noaa || is_metop)

/- ===================== predict.py ===================== -/

/-- src/meteor_auto/predict.py `PassEvent`.  Times are epoch seconds;
duration_sec = int((los - aos).total_seconds()). -/
structure PassEvent where
  satellite_name : String
  aos : Nat
  tca : Nat
  los : Nat
  max_elevation_deg : ℚ
  duration_sec : Nat
  deriving DecidableEq

/-- The per-satellite loop state of `find_passes`: in_pass, aos_dt, peak_el,
peak_time (Python locals, predict.py lines 60-63). -/
structure ScanState where
  in_pass : Bool
  aos_dt : Option Nat
  peak_el : ℚ
  peak_time : Option Nat
  deriving DecidableEq

/-- Initial / reset state: in_pass=False, aos_dt=None, peak_el=-90.0,
peak_time=None. -/
def initState : ScanState :=
  { in_pass := false, aos_dt := none, peak_el := -90, peak_time := none }

/-- One iteration of the `find_passes` while-loop body (predict.py lines
65-94) on the sample (t, elev). -/
def scanStep (sat_name : String) (min_elev_deg : ℚ)
    (s : ScanState × List PassEvent) (sample : Nat × ℚ) :
    ScanState × List PassEvent :=
  let st := s.1
  let passes := s.2
  let t := sample.1
  let elev := sample.2
  if 0 ≤ elev ∧ st.in_pass = false then
    ({ in_pass := true, aos_dt := some t, peak_el := elev, peak_time := some t },
     passes)
  else if st.in_pass then
    let pk := if st.peak_el < elev then (elev, some t) else (st.peak_el, st.peak_time)
    if elev < 0 then
      let emitted :=
        if min_elev_deg ≤ pk.1 then
          match st.aos_dt, pk.2 with
          | some aos, some ptime =>
              passes ++ [{ satellite_name := sat_name, aos := aos, tca := ptime,
                           los := t, max_elevation_deg := pk.1,
                           duration_sec := t - aos }]
          | _, _ => passes
        else passes
      (initState, emitted)
    else
      ({ in_pass := true, aos_dt := st.aos_dt, peak_el := pk.1,
         peak_time := pk.2 }, passes)
  else s

/-- The sample instants of the while-loop `t = start; while t <= end: ...;
t += step_seconds`: start, start+step, ... up to end (predict.py lines 59-95;
the source loop terminates only for step_seconds > 0, its default is 10). -/
def sampleTimes (startT endT step_seconds : Nat) : List Nat :=
  (List.range ((endT - startT) / step_seconds + 1)).map
    (fun k => startT + k * step_seconds)

/-- The whole per-satellite scan of `find_passes`, threading the shared
`passes` accumulator. -/
def scanSat (sat_name : String) (elev : Nat → ℚ) (startT endT : Nat)
    (min_elev_deg : ℚ) (step_seconds : Nat) (acc : List PassEvent) :
    List PassEvent :=
  (((sampleTimes startT endT step_seconds).map (fun t => (t, elev t))).foldl
    (scanStep sat_name min_elev_deg) (initState, acc)).2

/-- src/meteor_auto/predict.py `find_passes` (lines 40-99).  `startT` stands
for datetime.now(timezone.utc) in epoch seconds; each satellite of the
association list carries its elevation-sampling function (the skyfield
propagator applied to its TLE, an external collaborator).  The final
passes.sort(key=aos) is the stable mergeSort. -/
def find_passes (sat_name_to_tle : List (String × (Nat → ℚ)))
    (startT : Nat) (lookahead_hours : Nat) (min_elev_deg : ℚ)
    (step_seconds : Nat) : List PassEvent :=
  let endT := startT + lookahead_hours * 3600
  let passes := sat_name_to_tle.foldl
    (fun acc sat => scanSat sat.1 sat.2 startT endT min_elev_deg step_seconds acc)
    []
  passes.mergeSort (fun a b => decide (a.aos ≤ b.aos))

/-- The running (peak_el, peak_time) update performed on each in-pass sample:
updated only on strictly greater elevation (predict.py lines 73-75).  Used to
state what the scan loop computes over the in-pass samples. -/
def peakFold (s : ℚ × Nat) (l : List (Nat × ℚ)) : ℚ × Nat :=
  l.foldl (fun s x => if s.1 < x.2 then (x.2, x.1) else s) s

/-- The (time, elevation) samples of the loop for sample indices
s, s+1, ..., s+len-1 (sample index k is the instant startT + k * step). -/
def passSamples (elev : Nat → ℚ) (startT step s len : Nat) : List (Nat × ℚ) :=
  (List.range' s len).map (fun k => (startT + k * step, elev (startT + k * step)))

/- ===================== runner.py ===================== -/

/-- The SatDumpRunner._fallback_state dict: per-satellite consecutive-failure
counter, none = key absent. -/
abbrev FallbackState : Type := String → Option Nat

/-- Python self._fallback_state.get(satellite_name, 0). -/
def fbGet (st : FallbackState) (satellite_name : String) : Nat :=
  (st satellite_name).getD 0

/-- src/meteor_auto/runner.py `_should_use_fallback` (lines 34-37):
failures >= 2. -/
def _should_use_fallback (st : FallbackState) (satellite_name : String) : Bool :=
  decide (2 ≤ fbGet st satellite_name)

/-- src/meteor_auto/runner.py `_record_failure` (lines 39-42):
state[name] = state.get(name, 0) + 1. -/
def _record_failure (st : FallbackState) (satellite_name : String) : FallbackState :=
  fun n => if n = satellite_name then some (fbGet st satellite_name + 1) else st n

/-- src/meteor_auto/runner.py `_record_success` (lines 44-47): delete the key
if present. -/
def _record_success (st : FallbackState) (satellite_name : String) : FallbackState :=
  fun n => if n = satellite_name then none else st n

/-- config.satdump fields consumed by the runner (numeric fields already in
the integral/rational form the command rendering uses). -/
structure SatDumpSettings where
  path : String
  sample_rate_sps : Int
  gain_db : ℚ
  bias_tee : Bool
  enable_agc : Bool
  http_bind : Option String

/-- config.frequencies: primary_hz / backup_hz. -/
structure Frequencies where
  primary_hz : Int
  backup_hz : Int

/-- config.pipelines: primary / fallback pipeline identifiers. -/
structure Pipelines where
  primary : String
  fallback : String

/-- The slice of Config the runner reads. -/
structure Config where
  satdump : SatDumpSettings
  frequencies : Frequencies
  pipelines : Pipelines

/-- src/meteor_auto/runner.py `_build_satdump_cmd` (lines 49-81). -/
def _build_satdump_cmd (config : Config) (st : FallbackState)
    (pass_event : PassEvent) (output_dir : String) : List String :=
  let use_fallback := _should_use_fallback st pass_event.satellite_name
  let frequency := if use_fallback then config.frequencies.backup_hz
                   else config.frequencies.primary_hz
  let pipeline := if use_fallback then config.pipelines.fallback
                  else config.pipelines.primary
  let duration_sec := pass_event.duration_sec + 120 + 60
  let cmd := [config.satdump.path, "live", pipeline, output_dir,
              "--source", "rtlsdr",
              "--samplerate", toString config.satdump.sample_rate_sps,
              "--frequency", toString frequency,
              "--gain", toString config.satdump.gain_db,
              "--timeout", toString duration_sec]
  let cmd := if config.satdump.bias_tee then cmd ++ ["--bias"] else cmd
  let cmd := if config.satdump.enable_agc = false then cmd ++ ["--no-agc"] else cmd
  match config.satdump.http_bind with
  | some b => cmd ++ ["--http_server", b]
  | none => cmd

/-- The extension patterns of `_check_capture_success`
(runner.py line 86). -/
def capturePatterns : List String := [".png", ".jpg", ".jpeg", ".lrpt", ".cadu"]

/-- src/meteor_auto/runner.py `_check_capture_success` (lines 83-90): some
file in the output directory matches one of the glob patterns. -/
def _check_capture_success (output_files : List String) : Bool :=
  capturePatterns.any (fun ext => output_files.any (fun f => endsWithExt f ext))

/-- The subprocess.run wall-clock timeout of `capture_pass`
(runner.py line 110): duration_sec + 300. -/
def capture_run_timeout (pass_event : PassEvent) : Nat :=
  pass_event.duration_sec + 300

/-- Outcome of the subprocess.run call inside capture_pass: completed with a
return code, raised subprocess.TimeoutExpired, or raised another exception. -/
inductive SubprocessOutcome where
  | completed (returncode : Int)
  | timedOut
  | raised
  deriving DecidableEq

/-- src/meteor_auto/runner.py `capture_pass` (lines 92-137).  The
environment is passed explicitly: whether shutil.which resolves the tool,
the subprocess outcome, and the files present in the output directory after
the run.  Returns the boolean result and the updated fallback state. -/
def capture_pass (st : FallbackState) (pass_event : PassEvent)
    (satdump_available : Bool) (outcome : SubprocessOutcome)
    (output_files : List String) : Bool × FallbackState :=
  if satdump_available = false then (false, st)
  else
    match outcome with
    | .completed returncode =>
        if returncode = 0 ∧ _check_capture_success output_files = true then
          (true, _record_success st pass_event.satellite_name)
        else
          (false, _record_failure st pass_event.satellite_name)
    | .timedOut => (false, _record_failure st pass_event.satellite_name)
    | .raised => (false, _record_failure st pass_event.satellite_name)

/- ===================== scheduler.py (CaptureLock) ===================== -/

/-- The lock-file state: some mtime (epoch seconds, rational like
time.time()) when capture.lock exists, none when absent. -/
abbrev LockState := Option ℚ

/-- src/meteor_auto/scheduler.py `_is_locked` (lines 27-40): returns the
boolean answer and the possibly-updated filesystem state (a stale marker,
older than 4 hours, is unlinked). -/
def _is_locked (lock : LockState) (now : ℚ) : Bool × LockState :=
  match lock with
  | none => (false, none)
  | some mtime =>
      let age_hours := (now - mtime) / 3600
      if 4 < age_hours then (false, none)
      else (true, some mtime)

/-- src/meteor_auto/scheduler.py `_acquire_lock` (lines 42-52): fail if
locked, else write the marker (its mtime becomes now). -/
def _acquire_lock (lock : LockState) (now : ℚ) : Bool × LockState :=
  let r := _is_locked lock now
  if r.1 then (false, r.2)
  else (true, some now)

/-- src/meteor_auto/scheduler.py `_release_lock` (lines 54-60). -/
def _release_lock (_lock : LockState) : LockState := none

/- ===================== Theorems ===================== -/

/-- C1: the capture timeout handed to SatDump on the command line is
event.duration_sec + 120 (pre-roll) + 60 (post-roll); the wall-clock timeout
bounding subprocess.run is duration_sec + 300, strictly greater than the
capture timeout. -/
theorem timeout_margins (config : Config) (st : FallbackState)
    (pass_event : PassEvent) (output_dir : String) :
    (∃ front back, _build_satdump_cmd config st pass_event output_dir =
        front ++ ["--timeout", toString (pass_event.duration_sec + 120 + 60)] ++ back)
    ∧ capture_run_timeout pass_event = pass_event.duration_sec + 300
    ∧ pass_event.duration_sec + 120 + 60 < capture_run_timeout pass_event := by
  refine ⟨?_, rfl, by simp [capture_run_timeout]⟩
  refine ⟨[config.satdump.path, "live",
      (if _should_use_fallback st pass_event.satellite_name then
        config.pipelines.fallback else config.pipelines.primary),
      output_dir, "--source", "rtlsdr",
      "--samplerate", toString config.satdump.sample_rate_sps,
      "--frequency", toString (if _should_use_fallback st pass_event.satellite_name
        then config.frequencies.backup_hz else config.frequencies.primary_hz),
      "--gain", toString config.satdump.gain_db],
    (if config.satdump.bias_tee then ["--bias"] else []) ++
      (if config.satdump.enable_agc = false then ["--no-agc"] else []) ++
      (match config.satdump.http_bind with
       | some b => ["--http_server", b]
       | none => []), ?_⟩
  unfold _build_satdump_cmd
  rcases hb : config.satdump.http_bind with _ | b <;>
    rcases hbt : config.satdump.bias_tee <;>
      rcases hagc : config.satdump.enable_agc <;>
        simp [hb, hbt, hagc]

/-- C3: acquiring the capture lock from the unlocked state succeeds and
records the acquisition time; a second acquisition while the marker is at
most 4 hours old fails and leaves the marker; once the marker is older than
4 hours the next acquisition removes the stale marker and takes the lock. -/
theorem capture_lock_exclusion (t1 t2 : ℚ) :
    _acquire_lock none t1 = (true, some t1)
    ∧ ((t2 - t1) / 3600 ≤ 4 → _acquire_lock (some t1) t2 = (false, some t1))
    ∧ (4 < (t2 - t1) / 3600 → _acquire_lock (some t1) t2 = (true, some t2)) := by
  refine ⟨rfl, fun h => ?_, fun h => ?_⟩
  · simp [_acquire_lock, _is_locked, not_lt.mpr h]
  · simp [_acquire_lock, _is_locked, h]

/-- C4: with the tool available, capture_pass returns true exactly when the
subprocess completed with return code 0 and a recognized output artifact is
present; on success it records a success for the satellite, on any failure
(non-zero exit, missing artifact, timeout, raised exception) it records a
failure. -/
theorem capture_outcome_contract (st : FallbackState) (pass_event : PassEvent)
    (outcome : SubprocessOutcome) (output_files : List String) :
    ((capture_pass st pass_event true outcome output_files).1 = true ↔
      outcome = SubprocessOutcome.completed 0
        ∧ _check_capture_success output_files = true)
    ∧ ((capture_pass st pass_event true outcome output_files).1 = true →
        (capture_pass st pass_event true outcome output_files).2 =
          _record_success st pass_event.satellite_name)
    ∧ ((capture_pass st pass_event true outcome output_files).1 = false →
        (capture_pass st pass_event true outcome output_files).2 =
          _record_failure st pass_event.satellite_name) := by
  cases outcome with
  | completed returncode =>
      by_cases h : returncode = 0 ∧ _check_capture_success output_files = true
      · simp [capture_pass, h]
      · simp only [capture_pass, if_neg h]
        simp [h]
  | timedOut => simp [capture_pass]
  | raised => simp [capture_pass]

/-- C5: the fallback decision is false at 0 or 1 consecutive failures and
true at 2 or more; a recorded failure increments the counter by one; a
recorded success removes the counter entirely, after which the fallback
decision is false. -/
theorem fallback_counter_contract (st : FallbackState) (name : String) :
    (_should_use_fallback st name = false ↔ fbGet st name = 0 ∨ fbGet st name = 1)
    ∧ (_should_use_fallback st name = true ↔ 2 ≤ fbGet st name)
    ∧ fbGet (_record_failure st name) name = fbGet st name + 1
    ∧ _record_success st name name = none
    ∧ _should_use_fallback (_record_success st name) name = false := by
  refine ⟨?_, ?_, ?_, ?_, ?_⟩
  · simp [_should_use_fallback]; omega
  · simp [_should_use_fallback]
  · simp [fbGet, _record_failure]
  · simp [_record_success]
  · simp [_should_use_fallback, fbGet, _record_success]

/-- C6: when the external tool is not resolvable, capture_pass fails
immediately and the fallback failure counters are left untouched. -/
theorem env_error_keeps_fallback_state (st : FallbackState)
    (pass_event : PassEvent) (outcome : SubprocessOutcome)
    (output_files : List String) :
    capture_pass st pass_event false outcome output_files = (false, st) := rfl

/-- C7: for every input target list, in any iteration order, find_passes
returns a sequence sorted by aos non-decreasing. -/
theorem find_passes_sorted_by_aos (sat_name_to_tle : List (String × (Nat → ℚ)))
    (startT lookahead_hours : Nat) (min_elev_deg : ℚ) (step_seconds : Nat) :
    (find_passes sat_name_to_tle startT lookahead_hours min_elev_deg
      step_seconds).Pairwise (fun a b => a.aos ≤ b.aos) := by
  have h := @List.sorted_mergeSort PassEvent (fun a b => decide (a.aos ≤ b.aos))
    (fun a b c hab hbc => by
      simp only [decide_eq_true_eq] at hab hbc ⊢
      omega)
    (fun a b => by
      simp only [Bool.or_eq_true, decide_eq_true_eq]
      exact Nat.le_total _ _)
  unfold find_passes
  exact List.Pairwise.imp (fun hab => by simpa using hab) (h _)

/- Helper lemmas about the find_passes scan loop. -/

/-- A below-horizon sample leaves the idle scan state unchanged. -/
lemma scanStep_idle_neg (nm : String) (me : ℚ) (acc : List PassEvent)
    (x : Nat × ℚ) (hx : x.2 < 0) :
    scanStep nm me (initState, acc) x = (initState, acc) := by
  have h1 : ¬ (0 ≤ x.2) := not_le.mpr hx
  simp [scanStep, initState, h1]

/-- An at-or-above-horizon sample in the idle state enters a pass, recording
AOS and initializing the peak at the current sample. -/
lemma scanStep_enter (nm : String) (me : ℚ) (acc : List PassEvent)
    (x : Nat × ℚ) (hx : 0 ≤ x.2) :
    scanStep nm me (initState, acc) x =
      ({ in_pass := true, aos_dt := some x.1, peak_el := x.2,
         peak_time := some x.1 }, acc) := by
  simp [scanStep, initState, hx]

/-- An at-or-above-horizon sample while in a pass only updates the running
peak (strict improvement keeps the earlier peak time on ties). -/
lemma scanStep_inpass_pos (nm : String) (me : ℚ) (acc : List PassEvent)
    (a : Nat) (p : ℚ) (pt : Nat) (x : Nat × ℚ) (hx : 0 ≤ x.2) :
    scanStep nm me
      ({ in_pass := true, aos_dt := some a, peak_el := p, peak_time := some pt },
       acc) x =
      ({ in_pass := true, aos_dt := some a,
         peak_el := (if p < x.2 then ((x.2 : ℚ), x.1) else (p, pt)).1,
         peak_time := some (if p < x.2 then ((x.2 : ℚ), x.1) else (p, pt)).2 },
       acc) := by
  have h2 : ¬ (x.2 < 0) := not_lt.mpr hx
  by_cases hpk : p < x.2 <;> simp [scanStep, h2, hpk]

/-- A below-horizon sample while in a pass closes it: the event is emitted
exactly when the running peak reached the threshold, and the state resets. -/
lemma scanStep_close (nm : String) (me : ℚ) (acc : List PassEvent)
    (a : Nat) (p : ℚ) (pt : Nat) (x : Nat × ℚ) (hx : x.2 < 0) (hp : 0 ≤ p) :
    scanStep nm me
      ({ in_pass := true, aos_dt := some a, peak_el := p, peak_time := some pt },
       acc) x =
      (initState,
       if me ≤ p then
         acc ++ [{ satellite_name := nm, aos := a, tca := pt, los := x.1,
                   max_elevation_deg := p, duration_sec := x.1 - a }]
       else acc) := by
  have h1 : ¬ (0 ≤ x.2) := not_le.mpr hx
  have h2 : ¬ (p < x.2) := by
    intro hc
    exact absurd (lt_of_le_of_lt hp hc) (not_lt.mpr (le_of_lt hx))
  by_cases hme : me ≤ p <;> simp [scanStep, initState, h1, h2, hx, hme]

/-- Folding the loop body over all-below-horizon samples from the idle state
changes nothing. -/
lemma foldl_scanStep_neg (nm : String) (me : ℚ) (l : List (Nat × ℚ)) :
    ∀ (acc : List PassEvent), (∀ x ∈ l, x.2 < 0) →
    l.foldl (scanStep nm me) (initState, acc) = (initState, acc) := by
  induction l with
  | nil => intro acc _; rfl
  | cons x xs ih =>
      intro acc hl
      rw [List.foldl_cons, scanStep_idle_neg nm me acc x (hl x (List.mem_cons_self _ _))]
      exact ih acc (fun y hy => hl y (List.mem_cons_of_mem _ hy))

/-- One step of peakFold. -/
lemma peakFold_cons (p : ℚ) (pt : Nat) (x : Nat × ℚ) (l : List (Nat × ℚ)) :
    peakFold (p, pt) (x :: l) =
      peakFold (if p < x.2 then ((x.2 : ℚ), x.1) else (p, pt)) l := rfl

/-- Folding the loop body over at-or-above-horizon samples while in a pass
keeps the pass open, keeps AOS, and updates the peak as peakFold does. -/
lemma foldl_scanStep_pos (nm : String) (me : ℚ) (a : Nat)
    (l : List (Nat × ℚ)) :
    ∀ (acc : List PassEvent) (p : ℚ) (pt : Nat), (∀ x ∈ l, 0 ≤ x.2) →
    l.foldl (scanStep nm me)
      ({ in_pass := true, aos_dt := some a, peak_el := p, peak_time := some pt },
       acc) =
      ({ in_pass := true, aos_dt := some a, peak_el := (peakFold (p, pt) l).1,
         peak_time := some (peakFold (p, pt) l).2 }, acc) := by
  induction l with
  | nil => intro acc p pt _; rfl
  | cons x xs ih =>
      intro acc p pt hl
      rw [List.foldl_cons,
        scanStep_inpass_pos nm me acc a p pt x (hl x (List.mem_cons_self _ _)),
        peakFold_cons]
      by_cases hpk : p < x.2
      · simp only [if_pos hpk]
        exact ih acc x.2 x.1 (fun y hy => hl y (List.mem_cons_of_mem _ hy))
      · simp only [if_neg hpk]
        exact ih acc p pt (fun y hy => hl y (List.mem_cons_of_mem _ hy))

/-- The running peak bounds its seed and every sample it has folded over. -/
lemma peakFold_le (l : List (Nat × ℚ)) :
    ∀ (p : ℚ) (pt : Nat),
    p ≤ (peakFold (p, pt) l).1 ∧ ∀ x ∈ l, x.2 ≤ (peakFold (p, pt) l).1 := by
  induction l with
  | nil => intro p pt; exact ⟨le_refl _, by simp⟩
  | cons x xs ih =>
      intro p pt
      rw [peakFold_cons]
      by_cases hpk : p < x.2
      · simp only [if_pos hpk]
        obtain ⟨h1, h2⟩ := ih x.2 x.1
        refine ⟨le_trans (le_of_lt hpk) h1, ?_⟩
        intro y hy
        rcases List.mem_cons.mp hy with rfl | hy
        · exact h1
        · exact h2 y hy
      · simp only [if_neg hpk]
        obtain ⟨h1, h2⟩ := ih p pt
        refine ⟨h1, ?_⟩
        intro y hy
        rcases List.mem_cons.mp hy with rfl | hy
        · exact le_trans (not_lt.mp hpk) h1
        · exact h2 y hy

/-- The running peak is either untouched (all samples at most the seed) or is
the value and time of the first sample strictly exceeding everything before
it: the earliest sample attaining the final maximum. -/
lemma peakFold_spec (l : List (Nat × ℚ)) :
    ∀ (p : ℚ) (pt : Nat),
    peakFold (p, pt) l = (p, pt) ∨
    ∃ front z back, l = front ++ z :: back ∧ peakFold (p, pt) l = (z.2, z.1) ∧
      p < z.2 ∧ ∀ y ∈ front, y.2 < z.2 := by
  induction l with
  | nil => intro p pt; exact Or.inl rfl
  | cons x xs ih =>
      intro p pt
      rw [peakFold_cons]
      by_cases hpk : p < x.2
      · simp only [if_pos hpk]
        rcases ih x.2 x.1 with heq | ⟨front, z, back, hsplit, hval, hlt, hfront⟩
        · exact Or.inr ⟨[], x, xs, rfl, heq, hpk, by simp⟩
        · refine Or.inr ⟨x :: front, z, back, by rw [hsplit, List.cons_append], hval,
            lt_trans hpk hlt, ?_⟩
          intro y hy
          rcases List.mem_cons.mp hy with rfl | hy
          · exact hlt
          · exact hfront y hy
      · simp only [if_neg hpk]
        rcases ih p pt with heq | ⟨front, z, back, hsplit, hval, hlt, hfront⟩
        · exact Or.inl heq
        · refine Or.inr ⟨x :: front, z, back, by rw [hsplit, List.cons_append], hval, hlt, ?_⟩
          intro y hy
          rcases List.mem_cons.mp hy with rfl | hy
          · exact lt_of_le_of_lt (not_lt.mp hpk) hlt
          · exact hfront y hy

/-- Splitting the sample-index range at two cut points. -/
lemma range_split (i j n : Nat) (hij : i ≤ j) (hjn : j ≤ n) :
    List.range n =
      (List.range' 0 i ++ List.range' i (j - i)) ++ List.range' j (n - j) := by
  have h2 : List.range' i (j - i) ++ List.range' j (n - j) =
      List.range' i (n - i) := by
    have h := List.range'_append i (j - i) (n - j) 1
    rw [one_mul, show i + (j - i) = j from by omega] at h
    rw [h, show n - j + (j - i) = n - i from by omega]
  have h1 : List.range' 0 i ++ List.range' i (n - i) = List.range' 0 n := by
    have h := List.range'_append 0 i (n - i) 1
    rw [one_mul, Nat.zero_add] at h
    rw [h, show n - i + i = n from by omega]
  rw [List.range_eq_range', ← h1, List.append_assoc, h2]

/-- find_passes on a single-satellite target list is the mergeSort of that
satellite's scan. -/
lemma find_passes_single (nm : String) (elev : Nat → ℚ)
    (startT lookahead_hours : Nat) (min_elev_deg : ℚ) (step_seconds : Nat) :
    find_passes [(nm, elev)] startT lookahead_hours min_elev_deg step_seconds =
      (scanSat nm elev startT (startT + lookahead_hours * 3600) min_elev_deg
        step_seconds []).mergeSort (fun a b => decide (a.aos ≤ b.aos)) := rfl

/-- What the per-satellite scan produces on a profile with exactly one
upward horizon crossing at sample i, closed at sample j, and no later
crossing before the horizon end: the single candidate event, emitted exactly
when its peak reaches the threshold. -/
lemma scanSat_single_pass (nm : String) (elev : Nat → ℚ) (startT endT : Nat)
    (me : ℚ) (step : Nat) (acc : List PassEvent) (i j : Nat)
    (hij : i < j) (hjn : j < (endT - startT) / step + 1)
    (hA : ∀ k, k < i → elev (startT + k * step) < 0)
    (hB : ∀ k, i ≤ k → k < j → 0 ≤ elev (startT + k * step))
    (hC : ∀ k, j ≤ k → k < (endT - startT) / step + 1 →
      elev (startT + k * step) < 0)
    (pk : ℚ × Nat)
    (hpk : pk = peakFold (elev (startT + i * step), startT + i * step)
        (passSamples elev startT step (i + 1) (j - i - 1))) :
    scanSat nm elev startT endT me step acc =
      if me ≤ pk.1 then
        acc ++ [{ satellite_name := nm, aos := startT + i * step, tca := pk.2,
                  los := startT + j * step, max_elevation_deg := pk.1,
                  duration_sec := (startT + j * step) - (startT + i * step) }]
      else acc := by
  subst hpk
  unfold scanSat sampleTimes
  rw [List.map_map]
  have hcomp : ((fun t => (t, elev t)) ∘ fun k => startT + k * step) =
      fun k => (startT + k * step, elev (startT + k * step)) := rfl
  rw [hcomp]
  set g : Nat → Nat × ℚ := fun k => (startT + k * step, elev (startT + k * step))
    with hg
  rw [range_split i j ((endT - startT) / step + 1) (le_of_lt hij) (le_of_lt hjn),
    List.map_append, List.map_append, List.foldl_append, List.foldl_append]
  have hAneg : ∀ x ∈ (List.range' 0 i).map g, x.2 < 0 := by
    intro x hx
    rcases List.mem_map.mp hx with ⟨k, hk, rfl⟩
    exact hA k (by simpa using (List.mem_range'_1.mp hk).2)
  rw [foldl_scanStep_neg nm me _ acc hAneg]
  rw [show j - i = (j - i - 1) + 1 from by omega, List.range'_succ,
    List.map_cons, List.foldl_cons]
  have hBi : 0 ≤ (g i).2 := hB i (le_refl i) hij
  rw [scanStep_enter nm me acc (g i) hBi]
  have hBpos : ∀ x ∈ (List.range' (i + 1) (j - i - 1)).map g, 0 ≤ x.2 := by
    intro x hx
    rcases List.mem_map.mp hx with ⟨k, hk, rfl⟩
    obtain ⟨hk1, hk2⟩ := List.mem_range'_1.mp hk
    exact hB k (by omega) (by omega)
  rw [foldl_scanStep_pos nm me (g i).1 _ acc (g i).2 (g i).1 hBpos]
  rw [show (endT - startT) / step + 1 - j =
      ((endT - startT) / step + 1 - j - 1) + 1 from by omega, List.range'_succ,
    List.map_cons, List.foldl_cons]
  have hCj : (g j).2 < 0 := hC j (le_refl j) hjn
  have hp : 0 ≤ (peakFold ((g i).2, (g i).1)
      ((List.range' (i + 1) (j - i - 1)).map g)).1 :=
    le_trans hBi (peakFold_le _ (g i).2 (g i).1).1
  rw [scanStep_close nm me acc (g i).1 _ _ (g j) hCj hp]
  have hCneg : ∀ x ∈ (List.range' (j + 1)
      ((endT - startT) / step + 1 - j - 1)).map g, x.2 < 0 := by
    intro x hx
    rcases List.mem_map.mp hx with ⟨k, hk, rfl⟩
    obtain ⟨hk1, hk2⟩ := List.mem_range'_1.mp hk
    exact hC k (by omega) (by omega)
  rw [foldl_scanStep_neg nm me _ _ hCneg]
  simp only [hg, passSamples]
  rw [Nat.add_sub_cancel]

/-- A profile that rises to the horizon at sample i and never returns below
it before the horizon end leaves the scan with an open pass: nothing is
appended to the accumulator. -/
lemma scanSat_open_pass (nm : String) (elev : Nat → ℚ) (startT endT : Nat)
    (me : ℚ) (step : Nat) (acc : List PassEvent) (i : Nat)
    (hi : i < (endT - startT) / step + 1)
    (hA : ∀ k, k < i → elev (startT + k * step) < 0)
    (hB : ∀ k, i ≤ k → k < (endT - startT) / step + 1 →
      0 ≤ elev (startT + k * step)) :
    scanSat nm elev startT endT me step acc = acc := by
  unfold scanSat sampleTimes
  rw [List.map_map]
  have hcomp : ((fun t => (t, elev t)) ∘ fun k => startT + k * step) =
      fun k => (startT + k * step, elev (startT + k * step)) := rfl
  rw [hcomp]
  set g : Nat → Nat × ℚ := fun k => (startT + k * step, elev (startT + k * step))
    with hg
  rw [range_split i ((endT - startT) / step + 1) ((endT - startT) / step + 1)
    (le_of_lt hi) (le_refl _), Nat.sub_self, List.range'_zero, List.append_nil,
    List.map_append, List.foldl_append]
  have hAneg : ∀ x ∈ (List.range' 0 i).map g, x.2 < 0 := by
    intro x hx
    rcases List.mem_map.mp hx with ⟨k, hk, rfl⟩
    exact hA k (by simpa using (List.mem_range'_1.mp hk).2)
  rw [foldl_scanStep_neg nm me _ acc hAneg]
  rw [show (endT - startT) / step + 1 - i =
      ((endT - startT) / step + 1 - i - 1) + 1 from by omega, List.range'_succ,
    List.map_cons, List.foldl_cons]
  have hBi : 0 ≤ (g i).2 := hB i (le_refl i) hi
  rw [scanStep_enter nm me acc (g i) hBi]
  have hBpos : ∀ x ∈ (List.range' (i + 1)
      ((endT - startT) / step + 1 - i - 1)).map g, 0 ≤ x.2 := by
    intro x hx
    rcases List.mem_map.mp hx with ⟨k, hk, rfl⟩
    obtain ⟨hk1, hk2⟩ := List.mem_range'_1.mp hk
    exact hB k (by omega) (by omega)
  rw [foldl_scanStep_pos nm me (g i).1 _ acc (g i).2 (g i).1 hBpos]

/-- The samples of one in-pass index window, as members of passSamples. -/
lemma mem_passSamples (elev : Nat → ℚ) (startT step s len k : Nat)
    (h1 : s ≤ k) (h2 : k < s + len) :
    (startT + k * step, elev (startT + k * step)) ∈
      passSamples elev startT step s len := by
  unfold passSamples
  exact List.mem_map_of_mem _ (List.mem_range'_1.mpr ⟨h1, h2⟩)

/-- Splitting a consecutive index range at an element: the element is in the
range and everything of the range below it lies in the left part. -/
lemma range'_split_mem : ∀ (len s : Nat) (R1 : List Nat) (kz : Nat) (R2 : List Nat),
    List.range' s len = R1 ++ kz :: R2 →
    s ≤ kz ∧ kz < s + len ∧ ∀ k, s ≤ k → k < kz → k ∈ R1 := by
  intro len
  induction len with
  | zero =>
      intro s R1 kz R2 h
      exact absurd h (by simp)
  | succ len ih =>
      intro s R1 kz R2 h
      rw [List.range'_succ] at h
      cases R1 with
      | nil =>
          simp only [List.nil_append, List.cons.injEq] at h
          obtain ⟨rfl, -⟩ := h
          exact ⟨le_refl s, by omega, fun k hk1 hk2 => absurd hk2 (by omega)⟩
      | cons r R1t =>
          simp only [List.cons_append, List.cons.injEq] at h
          obtain ⟨rfl, htail⟩ := h
          obtain ⟨h1, h2, h3⟩ := ih (s + 1) R1t kz R2 htail
          refine ⟨by omega, by omega, ?_⟩
          intro k hk1 hk2
          rcases Nat.eq_or_lt_of_le hk1 with rfl | hk1'
          · exact List.mem_cons_self _ _
          · exact List.mem_cons_of_mem _ (h3 k (by omega) hk2)

/-- The final running peak of an in-pass window [i, j) is attained at some
sample index m of the window, the recorded peak time is that sample instant,
and every strictly earlier in-window sample is strictly below the peak (ties
keep the earliest attaining sample). -/
lemma peak_attained_earliest (elev : Nat → ℚ) (startT step i j : Nat)
    (hij : i < j) (pk : ℚ × Nat)
    (hpk : pk = peakFold (elev (startT + i * step), startT + i * step)
        (passSamples elev startT step (i + 1) (j - i - 1))) :
    ∃ m, i ≤ m ∧ m < j ∧ pk.2 = startT + m * step ∧
      elev (startT + m * step) = pk.1 ∧
      ∀ k, i ≤ k → k < m → elev (startT + k * step) < pk.1 := by
  rcases peakFold_spec (passSamples elev startT step (i + 1) (j - i - 1))
      (elev (startT + i * step)) (startT + i * step) with hfix |
      ⟨front, z, back, hsplit, hval, hlt, hfront⟩
  · refine ⟨i, le_refl i, hij, ?_, ?_, ?_⟩
    · rw [hpk, hfix]
    · rw [hpk, hfix]
    · intro k hk1 hk2
      exact absurd hk2 (by omega)
  · unfold passSamples at hsplit
    obtain ⟨R1, R2, hR12, hfr, hzb⟩ := List.map_eq_append_iff.mp hsplit
    obtain ⟨kz, R2t, hR2, hgz, -⟩ := List.map_eq_cons_iff.mp hzb
    subst hR2
    obtain ⟨hkz1, hkz2, hmem⟩ := range'_split_mem (j - i - 1) (i + 1) R1 kz R2t hR12
    refine ⟨kz, by omega, by omega, ?_, ?_, ?_⟩
    · rw [hpk, hval, ← hgz]
    · rw [hpk, hval, ← hgz]
    · intro k hk1 hk2
      rcases Nat.eq_or_lt_of_le hk1 with rfl | hk1'
      · rw [hpk, hval]
        exact hlt
      · have hkmem : k ∈ R1 := hmem k (by omega) hk2
        have hkfront : (startT + k * step, elev (startT + k * step)) ∈ front := by
          rw [← hfr]
          exact List.mem_map_of_mem _ hkmem
        have h2 := hfront _ hkfront
        rw [hpk, hval]
        exact h2

/-- C2: on a profile that crosses the horizon upward exactly once at sample
i and back below it at sample j before the horizon end, find_passes emits
exactly one PassEvent for the crossing when the sampled peak reaches the
minimum elevation, with aos and los at the crossing samples,
aos ≤ tca ≤ los, max_elevation_deg equal to the sampled peak (attained and
bounding), and duration_sec = los - aos in whole seconds; when every sample
of the window stays below the minimum elevation, nothing is emitted. -/
theorem find_passes_single_crossing (nm : String) (elev : Nat → ℚ)
    (startT lookahead_hours : Nat) (min_elev_deg : ℚ) (step_seconds : Nat)
    (i j : Nat) (hij : i < j)
    (hjn : j < lookahead_hours * 3600 / step_seconds + 1)
    (hA : ∀ k, k < i → elev (startT + k * step_seconds) < 0)
    (hB : ∀ k, i ≤ k → k < j → 0 ≤ elev (startT + k * step_seconds))
    (hC : ∀ k, j ≤ k → k < lookahead_hours * 3600 / step_seconds + 1 →
      elev (startT + k * step_seconds) < 0) :
    ((∃ k, i ≤ k ∧ k < j ∧ min_elev_deg ≤ elev (startT + k * step_seconds)) →
      ∃ e, find_passes [(nm, elev)] startT lookahead_hours min_elev_deg
          step_seconds = [e]
        ∧ e.satellite_name = nm
        ∧ e.aos = startT + i * step_seconds
        ∧ e.los = startT + j * step_seconds
        ∧ e.aos ≤ e.tca ∧ e.tca ≤ e.los
        ∧ (∃ k, i ≤ k ∧ k < j ∧
            elev (startT + k * step_seconds) = e.max_elevation_deg)
        ∧ (∀ k, i ≤ k → k < j →
            elev (startT + k * step_seconds) ≤ e.max_elevation_deg)
        ∧ min_elev_deg ≤ e.max_elevation_deg
        ∧ e.duration_sec = e.los - e.aos)
    ∧ ((∀ k, i ≤ k → k < j → elev (startT + k * step_seconds) < min_elev_deg) →
      find_passes [(nm, elev)] startT lookahead_hours min_elev_deg
        step_seconds = []) := by
  have hsub : startT + lookahead_hours * 3600 - startT = lookahead_hours * 3600 :=
    Nat.add_sub_cancel_left startT _
  set pk := peakFold (elev (startT + i * step_seconds), startT + i * step_seconds)
      (passSamples elev startT step_seconds (i + 1) (j - i - 1)) with hpkdef
  have hmaster := scanSat_single_pass nm elev startT
    (startT + lookahead_hours * 3600) min_elev_deg step_seconds [] i j hij
    (by rw [hsub]; exact hjn) hA hB (by rw [hsub]; exact hC) pk hpkdef
  obtain ⟨m, hm1, hm2, hmt, hmax, hearliest⟩ :=
    peak_attained_earliest elev startT step_seconds i j hij pk hpkdef
  have hbound : ∀ k, i ≤ k → k < j →
      elev (startT + k * step_seconds) ≤ pk.1 := by
    intro k hik hkj
    rcases Nat.eq_or_lt_of_le hik with rfl | hik2
    · rw [hpkdef]
      exact (peakFold_le _ _ _).1
    · rw [hpkdef]
      exact (peakFold_le _ _ _).2 _
        (mem_passSamples elev startT step_seconds (i + 1) (j - i - 1) k
          (by omega) (by omega))
  constructor
  · rintro ⟨k0, hk0i, hk0j, hk0me⟩
    have hme : min_elev_deg ≤ pk.1 := le_trans hk0me (hbound k0 hk0i hk0j)
    refine ⟨{ satellite_name := nm, aos := startT + i * step_seconds,
              tca := pk.2, los := startT + j * step_seconds,
              max_elevation_deg := pk.1,
              duration_sec :=
                (startT + j * step_seconds) - (startT + i * step_seconds) },
            ?_, rfl, rfl, rfl, ?_, ?_, ⟨m, hm1, hm2, hmax⟩, hbound, hme, rfl⟩
    · rw [find_passes_single, hmaster, if_pos hme, List.nil_append,
        List.mergeSort_singleton]
    · show startT + i * step_seconds ≤ pk.2
      rw [hmt]
      have h1 : i * step_seconds ≤ m * step_seconds :=
        Nat.mul_le_mul hm1 (le_refl _)
      omega
    · show pk.2 ≤ startT + j * step_seconds
      rw [hmt]
      have h1 : m * step_seconds ≤ j * step_seconds :=
        Nat.mul_le_mul (le_of_lt hm2) (le_refl _)
      omega
  · intro hlow
    have hme : pk.1 < min_elev_deg := by
      rw [← hmax]
      exact hlow m hm1 hm2
    rw [find_passes_single, hmaster, if_neg (not_le.mpr hme)]
    exact List.mergeSort_nil

/-- Witness for the single-crossing theorem on the concrete profile that is
-5 degrees before t=30, 50 degrees on [30, 100] and -5 degrees after, with a
20 degree threshold, one hour horizon and 10 second steps. -/
theorem find_passes_single_crossing_witness :
    ∃ e, find_passes
        [("SAT", fun t : Nat =>
          if t < 30 then (-5 : ℚ) else if t ≤ 100 then 50 else -5)]
        0 1 20 10 = [e]
      ∧ e.aos = 30 ∧ e.los = 110 ∧ e.aos ≤ e.tca ∧ e.tca ≤ e.los
      ∧ (20 : ℚ) ≤ e.max_elevation_deg ∧ e.duration_sec = e.los - e.aos := by
  obtain ⟨e, h1, -, h3, h4, h5, h6, -, -, h9, h10⟩ :=
    (find_passes_single_crossing "SAT"
      (fun t : Nat => if t < 30 then (-5 : ℚ) else if t ≤ 100 then 50 else -5)
      0 1 20 10 3 11 (by omega) (by norm_num)
      (fun k hk => by
        have hc : 0 + k * 10 < 30 := by omega
        simp only [if_pos hc]
        norm_num)
      (fun k hk1 hk2 => by
        have hc1 : ¬ (0 + k * 10 < 30) := by omega
        have hc2 : 0 + k * 10 ≤ 100 := by omega
        simp only [if_neg hc1, if_pos hc2]
        norm_num)
      (fun k hk1 hk2 => by
        have hc1 : ¬ (0 + k * 10 < 30) := by omega
        have hc2 : ¬ (0 + k * 10 ≤ 100) := by omega
        simp only [if_neg hc1, if_neg hc2]
        norm_num)).1
      ⟨3, by omega, by omega, by norm_num⟩
  refine ⟨e, h1, ?_, ?_, h5, h6, ?_, h10⟩
  · rw [h3]
  · rw [h4]
  · exact h9

/-- C8: a pass that has risen to the horizon by sample i and never returns
below 0 degrees before the horizon end is not emitted. -/
theorem open_pass_never_emitted (nm : String) (elev : Nat → ℚ)
    (startT lookahead_hours : Nat) (min_elev_deg : ℚ) (step_seconds : Nat)
    (i : Nat) (hi : i < lookahead_hours * 3600 / step_seconds + 1)
    (hA : ∀ k, k < i → elev (startT + k * step_seconds) < 0)
    (hB : ∀ k, i ≤ k → k < lookahead_hours * 3600 / step_seconds + 1 →
      0 ≤ elev (startT + k * step_seconds)) :
    find_passes [(nm, elev)] startT lookahead_hours min_elev_deg
      step_seconds = [] := by
  have hsub : startT + lookahead_hours * 3600 - startT = lookahead_hours * 3600 :=
    Nat.add_sub_cancel_left startT _
  rw [find_passes_single,
    scanSat_open_pass nm elev startT (startT + lookahead_hours * 3600)
      min_elev_deg step_seconds [] i (by rw [hsub]; exact hi) hA
      (by rw [hsub]; exact hB)]
  exact List.mergeSort_nil

/-- Witness for the open-pass theorem: a profile that rises at t=30 and
stays at 50 degrees through the whole horizon yields no pass. -/
theorem open_pass_never_emitted_witness :
    find_passes [("SAT", fun t : Nat => if t < 30 then (-5 : ℚ) else 50)]
      0 1 5 10 = [] :=
  open_pass_never_emitted "SAT"
    (fun t : Nat => if t < 30 then (-5 : ℚ) else 50) 0 1 5 10 3 (by norm_num)
    (fun k hk => by
      have hc : 0 + k * 10 < 30 := by omega
      simp only [if_pos hc]
      norm_num)
    (fun k hk1 hk2 => by
      have hc : ¬ (0 + k * 10 < 30) := by omega
      simp only [if_neg hc]
      norm_num)

/-- C10: on a single-crossing profile whose peak reaches the threshold, the
emitted event's tca is the sample instant of the earliest sample attaining
the maximum sampled elevation: every strictly earlier in-window sample is
strictly below the peak, so ties keep the earliest sample. -/
theorem tca_is_earliest_peak_sample (nm : String) (elev : Nat → ℚ)
    (startT lookahead_hours : Nat) (min_elev_deg : ℚ) (step_seconds : Nat)
    (i j : Nat) (hij : i < j)
    (hjn : j < lookahead_hours * 3600 / step_seconds + 1)
    (hA : ∀ k, k < i → elev (startT + k * step_seconds) < 0)
    (hB : ∀ k, i ≤ k → k < j → 0 ≤ elev (startT + k * step_seconds))
    (hC : ∀ k, j ≤ k → k < lookahead_hours * 3600 / step_seconds + 1 →
      elev (startT + k * step_seconds) < 0)
    (hreach : ∃ k, i ≤ k ∧ k < j ∧
      min_elev_deg ≤ elev (startT + k * step_seconds)) :
    ∃ e m, find_passes [(nm, elev)] startT lookahead_hours min_elev_deg
        step_seconds = [e]
      ∧ i ≤ m ∧ m < j
      ∧ e.tca = startT + m * step_seconds
      ∧ elev (startT + m * step_seconds) = e.max_elevation_deg
      ∧ ∀ k, i ≤ k → k < m →
          elev (startT + k * step_seconds) < e.max_elevation_deg := by
  have hsub : startT + lookahead_hours * 3600 - startT = lookahead_hours * 3600 :=
    Nat.add_sub_cancel_left startT _
  set pk := peakFold (elev (startT + i * step_seconds), startT + i * step_seconds)
      (passSamples elev startT step_seconds (i + 1) (j - i - 1)) with hpkdef
  have hmaster := scanSat_single_pass nm elev startT
    (startT + lookahead_hours * 3600) min_elev_deg step_seconds [] i j hij
    (by rw [hsub]; exact hjn) hA hB (by rw [hsub]; exact hC) pk hpkdef
  obtain ⟨m, hm1, hm2, hmt, hmax, hearliest⟩ :=
    peak_attained_earliest elev startT step_seconds i j hij pk hpkdef
  obtain ⟨k0, hk0i, hk0j, hk0me⟩ := hreach
  have hbound : elev (startT + k0 * step_seconds) ≤ pk.1 := by
    rcases Nat.eq_or_lt_of_le hk0i with rfl | hik2
    · rw [hpkdef]
      exact (peakFold_le _ _ _).1
    · rw [hpkdef]
      exact (peakFold_le _ _ _).2 _
        (mem_passSamples elev startT step_seconds (i + 1) (j - i - 1) k0
          (by omega) (by omega))
  have hme : min_elev_deg ≤ pk.1 := le_trans hk0me hbound
  refine ⟨{ satellite_name := nm, aos := startT + i * step_seconds,
            tca := pk.2, los := startT + j * step_seconds,
            max_elevation_deg := pk.1,
            duration_sec :=
              (startT + j * step_seconds) - (startT + i * step_seconds) },
          m, ?_, hm1, hm2, hmt, hmax, hearliest⟩
  rw [find_passes_single, hmaster, if_pos hme, List.nil_append,
    List.mergeSort_singleton]

/-- Witness for the earliest-tca theorem on a profile with a tie at the peak
(50 degrees at t=40 and t=60): the emitted tca is the earlier sample. -/
theorem tca_is_earliest_peak_sample_witness :
    ∃ e m, find_passes
        [("SAT", fun t : Nat =>
          if t < 30 then (-5 : ℚ) else if t = 40 then 50
          else if t = 60 then 50 else if t ≤ 100 then 10 else -5)]
        0 1 5 10 = [e]
      ∧ 3 ≤ m ∧ m < 11 ∧ e.tca = 0 + m * 10 := by
  obtain ⟨e, m, h1, h2, h3, h4, -, -⟩ :=
    tca_is_earliest_peak_sample "SAT"
      (fun t : Nat =>
        if t < 30 then (-5 : ℚ) else if t = 40 then 50
        else if t = 60 then 50 else if t ≤ 100 then 10 else -5)
      0 1 5 10 3 11 (by omega) (by norm_num)
      (fun k hk => by
        have hc : 0 + k * 10 < 30 := by omega
        simp only [if_pos hc]
        norm_num)
      (fun k hk1 hk2 => by
        have hc1 : ¬ (0 + k * 10 < 30) := by omega
        have hc4 : 0 + k * 10 ≤ 100 := by omega
        by_cases hc2 : 0 + k * 10 = 40
        · simp only [if_neg hc1, if_pos hc2]
          norm_num
        · by_cases hc3 : 0 + k * 10 = 60
          · simp only [if_neg hc1, if_neg hc2, if_pos hc3]
            norm_num
          · simp only [if_neg hc1, if_neg hc2, if_neg hc3, if_pos hc4]
            norm_num)
      (fun k hk1 hk2 => by
        have hc1 : ¬ (0 + k * 10 < 30) := by omega
        have hc2 : ¬ (0 + k * 10 = 40) := by omega
        have hc3 : ¬ (0 + k * 10 = 60) := by omega
        have hc4 : ¬ (0 + k * 10 ≤ 100) := by omega
        simp only [if_neg hc1, if_neg hc2, if_neg hc3, if_neg hc4]
        norm_num)
      ⟨4, by omega, by omega, by norm_num⟩
  exact ⟨e, m, h1, h2, h3, h4⟩

/-- C9: a bands argument whose lowercase form is neither lrpt nor hrpt falls
into the catch-all branch: the result is the union filter of METEOR, NOAA
and METOP pattern matches, identical to the "all" band; and for every bands
value the result is a sublist of the input catalog (a sub-mapping with
values unchanged). -/
theorem select_targets_other_bands (tles : List (String × TLE)) (bands : String)
    (h1 : lowerChars bands ≠ "lrpt".data)
    (h2 : lowerChars bands ≠ "hrpt".data) :
    select_targets tles bands = tles.filter (fun np =>
        matchesAny _METEOR_PATTERNS (upperChars np.1)
        || matchesAny _NOAA_PATTERNS (upperChars np.1)
        || matchesAny _METOP_PATTERNS (upperChars np.1))
    ∧ select_targets tles bands = select_targets tles "all"
    ∧ ∀ b : String, (select_targets tles b).Sublist tles := by
  have hall : select_targets tles bands = tles.filter (fun np =>
      matchesAny _METEOR_PATTERNS (upperChars np.1)
      || matchesAny _NOAA_PATTERNS (upperChars np.1)
      || matchesAny _METOP_PATTERNS (upperChars np.1)) := by
    unfold select_targets
    simp only [if_neg h1, if_neg h2]
  refine ⟨hall, ?_, fun b => ?_⟩
  · rw [hall]
    unfold select_targets
    have g1 : lowerChars "all" ≠ "lrpt".data := by decide
    have g2 : lowerChars "all" ≠ "hrpt".data := by decide
    simp only [if_neg g1, if_neg g2]
  · exact List.filter_sublist _

/-- Witness for the band fall-through on a concrete catalog and the band
string Everything. -/
theorem select_targets_other_bands_witness :
    select_targets
        [("Meteor-M N2-3", ("1A", "2A")), ("NOAA 19", ("1B", "2B")),
         ("METOP-B", ("1C", "2C")), ("GOES 16", ("1D", "2D"))] "Everything" =
      select_targets
        [("Meteor-M N2-3", ("1A", "2A")), ("NOAA 19", ("1B", "2B")),
         ("METOP-B", ("1C", "2C")), ("GOES 16", ("1D", "2D"))] "all" :=
  (select_targets_other_bands _ "Everything" (by decide) (by decide)).2.1

end MeteorAuto
